import Mathlib

/-!
# Verification of the trading-helper risk/decision core

Shallow embedding, over `ℚ`, of the decision core of the repository:
`src/gas/TradeManager.ts` (namespace `TM`) and the earlier
`apps-script/Trader.ts` (`V2Trader`, namespace `V2`).  JavaScript numbers are
modelled as exact rationals; `Math.min`/`Math.max`/`Math.floor` become
`min`/`max`/`Int.floor`.  Methods of the `TradeMemo` library class, whose file
is not part of the sources at hand, are modelled from the specification and
marked as such in their doc comments.
-/

namespace TradingHelper

/-- Trade states of a position record (`TradeState` in the sources). -/
inductive TradeState
  | IDLE
  | BUY
  | BOUGHT
  | SELL
  | SOLD
deriving DecidableEq, Repr

/-- Modelled from the spec: `priceMove` classifies the short-term trend
(DOWN / FLAT / UP) from the last samples (`PricesHolder.getPriceMove` is not
under the given sources). -/
inductive PriceMove
  | DOWN
  | NEUTRAL
  | UP
deriving DecidableEq, Repr

/-- Numeric rank of a `PriceMove`, mirroring the numeric enum comparison
(`priceMove < PriceMove.UP`, `priceMove > PriceMove.DOWN`) in the sources. -/
def PriceMove.rank : PriceMove → ℕ
  | .DOWN => 0
  | .NEUTRAL => 1
  | .UP => 2

/-- The `TradeResult` data carried by a record (quantity, paid cost, average
price, commission, gained amount, success flag, realized profit). -/
structure TradeResultR where
  quantity : ℚ := 0
  paid : ℚ := 0
  price : ℚ := 0
  commission : ℚ := 0
  gained : ℚ := 0
  fromExchange : Bool := false
  profit : ℚ := 0
deriving DecidableEq, Repr

/-- The `TradeMemo` position record. -/
structure TradeMemoR where
  state : TradeState := TradeState.IDLE
  prices : List ℚ := []
  currentPrice : ℚ := 0
  maxObservedPrice : ℚ := 0
  stopLimitPrice : ℚ := 0
  ttl : ℚ := 0
  hodl : Bool := false
  deleted : Bool := false
  tradeResult : TradeResultR := {}
deriving DecidableEq, Repr

/-- The configuration parameters consulted by the decision core. -/
structure ConfigR where
  ChannelSize : ℚ := 1/4
  FearGreedIndex : ℚ := 2
  ChannelWindowMins : ℚ := 4500
  StopLimit : ℚ := 0
  ProfitLimit : ℚ := 0
  SellAtStopLimit : Bool := true
  SellAtProfitLimit : Bool := true
  AveragingDown : Bool := false
deriving DecidableEq, Repr

/-- The mutable fields of `TradeManager`: `#canInvest`, `#balance`,
`#optimalInvestRatio`. -/
structure MgrState where
  canInvest : ℤ := 0
  balance : ℚ := 0
  optimalInvestRatio : ℤ := 0
deriving DecidableEq, Repr

/-- Modelled from the spec: unrealized profit of a held record,
`profit = quantity * currentPrice - paidCost` (`TradeMemo.profit` is not under
the given sources; the spec defines `P` as the profit fraction
`profit / paidCost`). -/
def profit (tm : TradeMemoR) : ℚ :=
  tm.tradeResult.quantity * tm.currentPrice - tm.tradeResult.paid

/-- Modelled from the spec: profit percentage `profit / paidCost`
(`TradeMemo.profitPercent` is not under the given sources). -/
def profitPercent (tm : TradeMemoR) : ℚ :=
  profit tm / tm.tradeResult.paid

/-- Bounded price-history capacity; the stop-limit average requires the last 3
samples (spec §3: capacity at least 3). -/
def PriceMemoMaxCapacity : ℕ := 3

/-- Modelled from the spec: `pushPrice` appends to the bounded history and
updates `currentPrice` and `maxObservedPrice` (`TradeMemo.pushPrice` is not
under the given sources). -/
def pushPrice (p : ℚ) (tm : TradeMemoR) : TradeMemoR :=
  let ps := tm.prices ++ [p]
  { tm with
    prices := ps.drop (ps.length - PriceMemoMaxCapacity)
    currentPrice := p
    maxObservedPrice := max tm.maxObservedPrice p }

/-- Modelled from the spec: trend classification from the last two samples
(pure, no side effects). -/
def getPriceMove (l : List ℚ) : PriceMove :=
  match l.drop (l.length - 2) with
  | [a, b] => if a < b then .UP else if b < a then .DOWN else .NEUTRAL
  | _ => .NEUTRAL

/-- Modelled from the spec: edge-triggered stop-limit crossing detector — true
only when the previous sample was at or above the threshold and the current
sample is below it (`TradeMemo.stopLimitCrossedDown` is not under the given
sources). -/
def stopLimitCrossedDown (tm : TradeMemoR) : Prop :=
  tm.currentPrice < tm.stopLimitPrice ∧
    tm.stopLimitPrice ≤ tm.prices.getD (tm.prices.length - 2) 0

instance (tm : TradeMemoR) : Decidable (stopLimitCrossedDown tm) :=
  inferInstanceAs (Decidable (tm.currentPrice < tm.stopLimitPrice ∧
    tm.stopLimitPrice ≤ tm.prices.getD (tm.prices.length - 2) 0))

/-- Modelled from the spec: price classified as going up when the last three
samples strictly ascend (`TradeMemo.priceGoesUp` is not under the given
sources). -/
def priceGoesUp (l : List ℚ) : Bool :=
  match l.drop (l.length - 3) with
  | [a, b, c] => decide (a < b ∧ b < c)
  | _ => false

/-- Modelled from the spec: `resetState` reverts the record to IDLE for retry
next cycle (`TradeMemo.resetState` is not under the given sources; spec §4.3). -/
def resetState (tm : TradeMemoR) : TradeMemoR :=
  { tm with state := TradeState.IDLE }

/-- Modelled from the spec: `joinWithNewTrade` merges a new trade result into
the record by weighted average of price, quantity and cost
(`TradeMemo.joinWithNewTrade` is not under the given sources). -/
def joinWithNewTrade (tm : TradeMemoR) (r : TradeResultR) : TradeMemoR :=
  let q := tm.tradeResult.quantity + r.quantity
  let paid := tm.tradeResult.paid + r.paid
  { tm with
    tradeResult := { tm.tradeResult with
      quantity := q
      paid := paid
      price := paid / q
      commission := tm.tradeResult.commission + r.commission
      fromExchange := true } }

namespace TM

/-- `MIN_BUSD_BUY` in `TradeManager.ts`. -/
def MIN_BUSD_BUY : ℚ := 15

/-- `TradeManager.updateStopLimit` (TradeManager.ts lines 237-270).
`channelLow` stands for the externally supplied `ch[Key.MIN]` channel-low
seed. -/
def updateStopLimit (cfg : ConfigR) (channelLow : ℚ) (tm : TradeMemoR) :
    TradeMemoR :=
  if tm.stopLimitPrice = 0 then
    { tm with stopLimitPrice := channelLow }
  else
    let CS := cfg.ChannelSize
    let FGI := cfg.FearGreedIndex
    let PG := CS * ((9/10) / FGI)
    let P := profit tm / tm.tradeResult.paid
    let K := min (99/100) (1 - CS + max 0 (P * CS / PG))
    let avePrice := ((tm.prices.drop (tm.prices.length - 3)).foldl (· + ·) 0) / 3
    let newStopLimit1 := min (K * avePrice) tm.currentPrice
    let s1 := max tm.stopLimitPrice newStopLimit1
    let maxTTL := cfg.ChannelWindowMins / FGI
    let curTTL := min tm.ttl maxTTL
    let k2 := min (99/100) (curTTL / maxTTL)
    let newStopLimit2 := min (k2 * avePrice) tm.currentPrice
    { tm with stopLimitPrice := max s1 newStopLimit2 }

/-- `TradeManager.forceUpdateStopLimit` (TradeManager.ts lines 272-276):
zero `ttl` and `stopLimitPrice`, then recompute. -/
def forceUpdateStopLimit (cfg : ConfigR) (channelLow : ℚ) (tm : TradeMemoR) :
    TradeMemoR :=
  updateStopLimit cfg channelLow { tm with ttl := 0, stopLimitPrice := 0 }

/-- `TradeManager.processBoughtState` (TradeManager.ts lines 220-235):
increment `ttl` (always finite in this embedding, so the `isFinite` guard of
the source is vacuous), recompute the stop limit, and request SELL when the
stop limit crossed down and stop-limit selling is enabled. -/
def processBoughtState (cfg : ConfigR) (channelLow : ℚ) (tm : TradeMemoR) :
    TradeMemoR :=
  let tm1 := { tm with ttl := tm.ttl + 1 }
  let tm2 := updateStopLimit cfg channelLow tm1
  if stopLimitCrossedDown tm2 ∧ cfg.SellAtStopLimit = true then
    { tm2 with state := TradeState.SELL }
  else tm2

/-- `TradeManager.#calculateQuantity` (TradeManager.ts lines 212-218). -/
def calculateQuantity (ms : MgrState) (tm : TradeMemoR) : ℚ :=
  if ms.canInvest ≤ 0 ∨ 0 < tm.tradeResult.quantity then 0
  else max MIN_BUSD_BUY ((⌊ms.balance / (ms.canInvest : ℚ)⌋ : ℤ) : ℚ)

/-- Outcome reported by `#checkTrade`: which exchange action was performed. -/
inductive TMAction
  | noAction
  | sellAct
  | buyAct (cost : ℚ)
deriving DecidableEq, Repr

/-- External inputs of one `#checkTrade` invocation: the price this cycle
(absent means DataUnavailable), the back-testing flag `isNode`, the channel-low
seed, the exchange gateway responses, and the BNB fee-asset environment.
`buyThrowAt` marks after how many post-trade steps of `#buy` an exception is
thrown (`none` means no exception). -/
structure Env where
  price : Option ℚ := none
  isNode : Bool := false
  channelLow : ℚ := 0
  buyResult : TradeResultR := {}
  sellResult : TradeResultR := {}
  bnbPrice : Option ℚ := none
  bnbExists : Bool := false
  buyThrowAt : Option ℕ := none
deriving Repr

/-- `TradeManager.getBNBCommissionCost` (TradeManager.ts lines 408-413):
commission converted at the BNB price, or 0 when no price is available. -/
def getBNBCommissionCost (bnbPrice : Option ℚ) (commission : ℚ) : ℚ :=
  match bnbPrice with
  | some p => commission * p
  | none => 0

/-- `f2` rounding to two decimals of the shared library. -/
def f2 (x : ℚ) : ℚ := (round (100 * x) : ℤ) / 100

/-- `TradeManager.#sell` (TradeManager.ts lines 335-382).  Returns the new
manager state, the new record, and whether a profit was recorded via
`Statistics.addProfit` (`updatePLStatistics` always records in `TradeManager`
because the settlement asset is a stable USD coin).  On gateway failure the
source only sets the state back to BOUGHT and alerts; it does not touch
`hodl`. -/
def sell (ms : MgrState) (env : Env) (memo : TradeMemoR) :
    MgrState × TradeMemoR × Bool :=
  let tradeResult := env.sellResult
  if tradeResult.fromExchange = true then
    let ms1 : MgrState :=
      { ms with
        canInvest := min ms.optimalInvestRatio (ms.canInvest + 1)
        balance := ms.balance + tradeResult.gained }
    let sellR1 :=
      if env.bnbExists then { tradeResult with commission := 0 } else tradeResult
    let fee := getBNBCommissionCost env.bnbPrice memo.tradeResult.commission +
      getBNBCommissionCost env.bnbPrice sellR1.commission
    let p := f2 (tradeResult.gained - memo.tradeResult.paid - fee)
    let sellR2 := { sellR1 with profit := p }
    let memo1 :=
      { memo with
        tradeResult := sellR2
        state := TradeState.SOLD
        ttl := 0 }
    (ms1, { memo1 with deleted := true }, true)
  else
    let memo1 := { memo with state := TradeState.BOUGHT }
    (ms, { memo1 with deleted := false }, false)

/-- The post-trade steps of the `try` block of `TradeManager.#buy`
(TradeManager.ts lines 309-322), in source order: allocator update, price
flattening, merging the trade result, resetting the stop limit.  The fee
netting step touches only the BNB record and the local trade result, not the
manager state or this record. -/
def buySteps (cfg : ConfigR) (env : Env) :
    List (MgrState × TradeMemoR → MgrState × TradeMemoR) :=
  [ fun s =>
      ({ s.1 with
          canInvest := max 0 (s.1.canInvest - 1)
          balance := s.1.balance - env.buyResult.paid }, s.2),
    fun s =>
      (s.1, { s.2 with
        prices := [env.buyResult.price]
        currentPrice := env.buyResult.price }),
    fun s => (s.1, joinWithNewTrade s.2 env.buyResult),
    fun s => (s.1, forceUpdateStopLimit cfg env.channelLow s.2) ]

/-- `TradeManager.#buy` (TradeManager.ts lines 304-333).  On gateway success
the post-trade steps run inside a `try` whose exceptions are caught; an
exception after `k` steps (`env.buyThrowAt = some k`) leaves the remaining
steps unapplied, and the `finally` block sets the state to BOUGHT regardless.
On gateway failure the record is reset. -/
def buy (ms : MgrState) (cfg : ConfigR) (env : Env) (tm : TradeMemoR) :
    MgrState × TradeMemoR :=
  if env.buyResult.fromExchange = true then
    let steps :=
      match env.buyThrowAt with
      | some k => (buySteps cfg env).take k
      | none => buySteps cfg env
    let applied := steps.foldl (fun s f => f s) (ms, tm)
    (applied.1, { applied.2 with state := TradeState.BOUGHT })
  else
    (ms, resetState tm)

/-- The `pushNewPrice` phase of `#checkTrade` (TradeManager.ts lines 278-296):
push the price when one is available; with no price but held quantity, alert
and — only under back-testing (`isNode`) — force-sell; otherwise leave the
record as is. -/
def checkTradePush (env : Env) (ms : MgrState) (tm : TradeMemoR) :
    MgrState × TradeMemoR :=
  match env.price with
  | some p => (ms, pushPrice p tm)
  | none =>
    if 0 < tm.tradeResult.quantity then
      if env.isNode then
        let s := sell ms env tm
        (s.1, s.2.1)
      else (ms, tm)
    else (ms, tm)

/-- The processing phase of `#checkTrade` (TradeManager.ts lines 181-183):
records holding quantity go through `processBoughtState`. -/
def checkTradeProcessed (env : Env) (cfg : ConfigR) (ms : MgrState)
    (tm : TradeMemoR) : TradeMemoR :=
  let tm1 := (checkTradePush env ms tm).2
  if 0 < tm1.tradeResult.quantity then processBoughtState cfg env.channelLow tm1
  else tm1

/-- `TradeManager.#checkTrade` (TradeManager.ts lines 178-210): push the new
price, process held records, then act — sell when in SELL state and the price
is not rising (or the stop limit crossed down), buy when in BUY state, the
price stopped falling, and `0 < spend ≤ balance`, otherwise reset to IDLE. -/
def checkTrade (env : Env) (ms : MgrState) (cfg : ConfigR) (tm : TradeMemoR) :
    MgrState × TradeMemoR × TMAction :=
  let pushed := checkTradePush env ms tm
  let ms1 := pushed.1
  let tm2 := checkTradeProcessed env cfg ms tm
  let pm := getPriceMove tm2.prices
  if tm2.state = TradeState.SELL ∧
      (stopLimitCrossedDown tm2 ∨ pm.rank < PriceMove.UP.rank) then
    let s := sell ms1 env tm2
    (s.1, s.2.1, TMAction.sellAct)
  else if tm2.state = TradeState.BUY ∧ PriceMove.DOWN.rank < pm.rank then
    let howMuch := calculateQuantity ms1 tm2
    if 0 < howMuch ∧ howMuch ≤ ms1.balance then
      let s := buy ms1 cfg env tm2
      (s.1, s.2, TMAction.buyAct howMuch)
    else (ms1, resetState tm2, TMAction.noAction)
  else (ms1, tm2, TMAction.noAction)

/-- `optimalInvestRatio` sizing in `TradeManager.trade` (TradeManager.ts line
69): clamp the candidate count to `[2, 4]`. -/
def optimalInvestRatio (candidates : ℕ) : ℤ :=
  max 2 (min 4 (candidates : ℤ))

/-- The two events of one cycle that change `#canInvest`: a successful buy
(TradeManager.ts line 310) and a successful sell (lines 347-350). -/
inductive TradeEvent
  | buyOk
  | sellOk
deriving DecidableEq, Repr

/-- Effect of one event on `#canInvest`, given `#optimalInvestRatio`. -/
def applyEvent (opt : ℤ) (ci : ℤ) : TradeEvent → ℤ
  | .buyOk => max 0 (ci - 1)
  | .sellOk => min opt (ci + 1)

/-- `#canInvest` over one `trade()` cycle (TradeManager.ts lines 63-115):
reset to `#optimalInvestRatio` when no investments are open, then folded over
the successful buys and sells of the cycle. -/
def cycleCanInvest (noInvestments : Bool) (prev opt : ℤ)
    (evs : List TradeEvent) : ℤ :=
  evs.foldl (applyEvent opt) (if noInvestments then opt else prev)

end TM

namespace V2

/-- `V2Trader.processBoughtState` (apps-script/Trader.ts lines 73-99): two
independent threshold checks, each guarded by `!hodl` and its enable flag, and
the price-goes-up stop-limit raise.  The crossing alerts of lines 77-81 have
no effect on the record. -/
def processBoughtState (cfg : ConfigR) (tm : TradeMemoR) : TradeMemoR :=
  let tm1 :=
    if tm.currentPrice < tm.stopLimitPrice ∧ tm.hodl = false ∧
        cfg.SellAtStopLimit = true then
      { tm with state := TradeState.SELL }
    else tm
  let profitLimitPrice := tm.tradeResult.price * (1 + cfg.ProfitLimit)
  let tm2 :=
    if profitLimitPrice < tm.currentPrice ∧ tm.hodl = false ∧
        cfg.SellAtProfitLimit = true then
      { tm1 with state := TradeState.SELL }
    else tm1
  if priceGoesUp tm2.prices then
    { tm2 with
      stopLimitPrice := max tm2.stopLimitPrice
        ((tm2.prices.getD (tm2.prices.length - 3) 0) * (1 - cfg.StopLimit)) }
  else tm2

/-- One insertion of the sort driven by the comparator
`byProfitPercentDesc = (t1, t2) => t1.profitPercent() < t2.profitPercent() ? -1 : 1`
of apps-script/Trader.ts line 156: an element moves left past another exactly
when its profit percentage is strictly lower. -/
def insertByPP (x : TradeMemoR) : List TradeMemoR → List TradeMemoR
  | [] => [x]
  | y :: ys =>
    if profitPercent x < profitPercent y then x :: y :: ys
    else y :: insertByPP x ys

/-- `Array.prototype.sort(byProfitPercentDesc)` modelled as a stable insertion
sort consistent with the comparator's sign (the engine binary-inserts the
short arrays at hand, keeping ties in encounter order). -/
def sortByPP (l : List TradeMemoR) : List TradeMemoR :=
  l.foldl (fun acc x => insertByPP x acc) []

/-- The selection of apps-script/Trader.ts lines 157-159: filter the
BOUGHT-state records, sort by profit percentage, take the head. -/
def lowestProfitTrade (trades : List TradeMemoR) : Option TradeMemoR :=
  (sortByPP (trades.filter fun t => decide (t.state = TradeState.BOUGHT))).head?

/-- Follows the spec's words for §4.5 (refinement reference, to be compared
with `lowestProfitTrade`): the first-encountered record with the lowest profit
percentage — only a strictly lower percentage displaces the running choice. -/
def specLowestProfitFirst : List TradeMemoR → Option TradeMemoR
  | [] => none
  | x :: xs =>
    some (xs.foldl (fun b u => if profitPercent u < profitPercent b then u else b) x)

/-- The averaging-down tail of `V2Trader.sell` (apps-script/Trader.ts lines
153-165): when the sell ended in SOLD state and averaging down is enabled, the
lowest-profit BOUGHT record is bought with the full sale proceeds
(`this.buy(lowestProfitTrade, tradeResult.gained)`); the returned pair is the
target record and the cost passed to the buy, `none` when no buy happens. -/
def sellReinvest (cfg : ConfigR) (memo : TradeMemoR) (gained : ℚ)
    (trades : List TradeMemoR) : Option (TradeMemoR × ℚ) :=
  if memo.state = TradeState.SOLD ∧ cfg.AveragingDown = true then
    (lowestProfitTrade trades).map fun t => (t, gained)
  else none

end V2

/-! ## Concrete inputs shared by the scenario theorems -/

/-- The spec §8 scenario record: paid cost 100, quantity 10, price history
`[9, 9.5, 10]` (current price 10), `ttl = 5`, previous stop-limit price `p`. -/
def tmScenario (p : ℚ) : TradeMemoR :=
  { state := TradeState.BOUGHT
    prices := [9, 19/2, 10]
    currentPrice := 10
    stopLimitPrice := p
    ttl := 5
    tradeResult := { quantity := 10, paid := 100 } }

/-- The spec §8 scenario configuration: `ChannelSize = 0.25`,
`FearGreedIndex = 2`, `ChannelWindowMins = 4500` (the defaults of
`DefaultConfig` in dao/Config.ts). -/
def cfgScenario : ConfigR := {}

/-! ## Claims -/

/-- C1, counterexample: in the spec §8 scenario the previous `stopLimitPrice`
is 0, so `updateStopLimit` takes the seed branch and copies the externally
supplied channel-low value (here 9) instead of computing 7.125. -/
theorem c1_zero_stop_seeds_channel_low :
    (TM.updateStopLimit cfgScenario 9 (tmScenario 0)).stopLimitPrice = 9 ∧
      (9 : ℚ) ≠ 57/8 := by
  constructor
  · decide
  · norm_num

/-- C1, amended: with configuration `ChannelSize = 0.25`,
`FearGreedIndex = 2`, `ChannelWindowMins = 4500`, for the held record with
paid cost 100, quantity 10, price history `[9, 9.5, 10]` (current price 10),
`ttl = 5`, zero profit, and any previous `stopLimitPrice` `p` with
`0 < p ≤ 7.125` (so the formula branch runs rather than the channel-low
seeding), one invocation of the stop-limit computation sets `stopLimitPrice`
to exactly `7.125 = 57/8`, via `PG = 0.1125`, `P = 0`, `K = 0.75`,
`avgPrice = 9.5`, `candidateA = 7.125`, `maxTTL = 2250`,
`candidateB = 19/900 ≈ 0.0211`, independently of the channel-low value. -/
theorem c1_scenario_stop_limit (low p : ℚ) (hp : 0 < p) (hple : p ≤ 57/8) :
    (TM.updateStopLimit cfgScenario low (tmScenario p)).stopLimitPrice = 57/8 := by
  simp only [TM.updateStopLimit, tmScenario, cfgScenario, profit]
  rw [if_neg (by simpa using ne_of_gt hp)]
  norm_num [List.foldl]
  exact hple

/-- C1, witness: the amended scenario at previous `stopLimitPrice = 1`. -/
theorem c1_scenario_stop_limit_witness :
    (0 : ℚ) < 1 ∧ (1 : ℚ) ≤ 57/8 ∧
      (TM.updateStopLimit cfgScenario 3 (tmScenario 1)).stopLimitPrice = 57/8 :=
  ⟨by norm_num, by norm_num,
    c1_scenario_stop_limit 3 1 (by norm_num) (by norm_num)⟩

/-- C2: for a record whose `stopLimitPrice` is non-zero, one invocation of
`updateStopLimit` never decreases `stopLimitPrice` — the new value is the
maximum of the old value and the two formula candidates, a monotonic
ratchet. -/
theorem c2_stop_limit_ratchet (cfg : ConfigR) (low : ℚ) (tm : TradeMemoR)
    (h : tm.stopLimitPrice ≠ 0) :
    tm.stopLimitPrice ≤ (TM.updateStopLimit cfg low tm).stopLimitPrice := by
  simp only [TM.updateStopLimit]
  rw [if_neg h]
  exact (le_max_left _ _).trans (le_max_left _ _)

/-- C2, witness: the ratchet at the scenario record with previous
`stopLimitPrice = 5`. -/
theorem c2_stop_limit_ratchet_witness :
    (tmScenario 5).stopLimitPrice ≠ 0 ∧
      (tmScenario 5).stopLimitPrice ≤
        (TM.updateStopLimit cfgScenario 3 (tmScenario 5)).stopLimitPrice :=
  ⟨by decide, c2_stop_limit_ratchet cfgScenario 3 (tmScenario 5) (by decide)⟩

/-- C3, counterexample: after `forceUpdateStopLimit` the stop limit equals the
externally supplied channel-low seed, which is not clamped to the current
price — with seed 20 and current price 10 the resulting `stopLimitPrice`
exceeds `currentPrice`. -/
theorem c3_force_reset_exceeds_price :
    (tmScenario 5).currentPrice <
      (TM.forceUpdateStopLimit cfgScenario 20 (tmScenario 5)).stopLimitPrice := by
  decide

/-- C3, amended: after `forceUpdateStopLimit` (which zeroes `ttl` and
`stopLimitPrice`) the recomputation takes the seed branch, so the resulting
`stopLimitPrice` equals the externally supplied channel-low value; hence it
does not exceed the record's `currentPrice` exactly when the seed does not. -/
theorem c3_force_reset_seed (cfg : ConfigR) (low : ℚ) (tm : TradeMemoR) :
    (TM.forceUpdateStopLimit cfg low tm).stopLimitPrice = low ∧
      (low ≤ tm.currentPrice →
        (TM.forceUpdateStopLimit cfg low tm).stopLimitPrice ≤ tm.currentPrice) := by
  have h : (TM.forceUpdateStopLimit cfg low tm).stopLimitPrice = low := by
    simp [TM.forceUpdateStopLimit, TM.updateStopLimit]
  exact ⟨h, fun hle => h ▸ hle⟩

/-- C3, witness: the amended statement at seed 9 and current price 10. -/
theorem c3_force_reset_seed_witness :
    (TM.forceUpdateStopLimit cfgScenario 9 (tmScenario 5)).stopLimitPrice ≤
      (tmScenario 5).currentPrice :=
  (c3_force_reset_seed cfgScenario 9 (tmScenario 5)).2 (by decide)

/-- C10: whenever the exchange `marketBuy` reports success, the record's state
is BOUGHT at the end of `#buy` for every possible exception point of the
post-trade steps (the assignment sits in a `finally` block); on gateway
failure the record is reset to IDLE instead. -/
theorem c10_buy_state_finally (ms : MgrState) (cfg : ConfigR) (env : TM.Env)
    (tm : TradeMemoR) :
    (TM.buy ms cfg env tm).2.state =
      if env.buyResult.fromExchange = true then TradeState.BOUGHT
      else TradeState.IDLE := by
  unfold TM.buy
  split <;> simp_all [resetState]

/-- A SELL-state record about to be sold, holding quantity 2 bought for 100,
not marked `hodl`. -/
def memoSellFail : TradeMemoR :=
  { state := TradeState.SELL
    prices := [10, 9, 8]
    currentPrice := 8
    stopLimitPrice := 9
    hodl := false
    deleted := false
    tradeResult := { quantity := 2, paid := 100, fromExchange := true } }

/-- An environment whose `marketSell` reports failure. -/
def envSellFail : TM.Env :=
  { sellResult := { fromExchange := false } }

/-- C4, evaluation at the failing input: when `marketSell` reports failure,
`TradeManager.#sell` reverts the state to BOUGHT, leaves `deleted` false, the
held quantity and paid cost unchanged, and records no profit — but, contrary
to the claim and to the source's own alert message (`The asset is marked
HODL`), it leaves `hodl` at `false` instead of setting it to `true` (the
earlier apps-script/Trader.ts version does set `memo.hodl = true` there). -/
theorem c4_sell_failure_leaves_hodl_unset :
    (TM.sell {} envSellFail memoSellFail).2.1.hodl = false ∧
    (TM.sell {} envSellFail memoSellFail).2.1.state = TradeState.BOUGHT ∧
    (TM.sell {} envSellFail memoSellFail).2.1.deleted = false ∧
    (TM.sell {} envSellFail memoSellFail).2.1.tradeResult = memoSellFail.tradeResult ∧
    (TM.sell {} envSellFail memoSellFail).2.2 = false := by
  decide

/-- Field preservation of `updateStopLimit`: only `stopLimitPrice` changes. -/
theorem updateStopLimit_fields (cfg : ConfigR) (low : ℚ) (tm : TradeMemoR) :
    (TM.updateStopLimit cfg low tm).prices = tm.prices ∧
    (TM.updateStopLimit cfg low tm).ttl = tm.ttl ∧
    (TM.updateStopLimit cfg low tm).state = tm.state ∧
    (TM.updateStopLimit cfg low tm).currentPrice = tm.currentPrice ∧
    (TM.updateStopLimit cfg low tm).tradeResult = tm.tradeResult := by
  unfold TM.updateStopLimit
  split <;> simp

/-- `updateStopLimit` never touches the `hodl` flag. -/
theorem updateStopLimit_hodl (cfg : ConfigR) (low : ℚ) (tm : TradeMemoR) :
    (TM.updateStopLimit cfg low tm).hodl = tm.hodl := by
  unfold TM.updateStopLimit
  split <;> simp

/-- A held BOUGHT record marked `hodl`, whose price 4 just fell below its
stop limit 5 (previous sample 10 was above it). -/
def tmHodlStop : TradeMemoR :=
  { state := TradeState.BOUGHT
    prices := [10, 10, 4]
    currentPrice := 4
    stopLimitPrice := 5
    ttl := 3
    hodl := true
    tradeResult := { quantity := 1, paid := 10 } }

/-- C5, counterexample: in the cited `TradeManager.processBoughtState`, a
BOUGHT record with `hodl = true` whose stop limit crossed down is still set to
SELL when stop-limit selling is enabled — the `hodl` flag is never consulted
there, refuting the claim that a `hodl = true` record is never set to SELL. -/
theorem c5_hodl_record_sold_by_stop_check :
    tmHodlStop.hodl = true ∧ tmHodlStop.state = TradeState.BOUGHT ∧
      cfgScenario.SellAtStopLimit = true ∧
      (TM.processBoughtState cfgScenario 0 tmHodlStop).state = TradeState.SELL := by
  have h : TM.processBoughtState cfgScenario 0 tmHodlStop =
      { tmHodlStop with ttl := 4, state := TradeState.SELL } := by
    simp [TM.processBoughtState, TM.updateStopLimit, stopLimitCrossedDown,
      profit, tmHodlStop, cfgScenario, min_def, max_def]
    norm_num
  rw [h]
  refine ⟨rfl, rfl, rfl, rfl⟩

/-- C5, amended: in the apps-script `V2Trader.processBoughtState` both
threshold checks run each cycle as claimed — the state becomes SELL exactly
when the stop-limit check fires (current price below the stop limit,
stop-limit selling enabled, not `hodl`) or, independently, the profit-limit
check fires (current price above `averagePrice * (1 + ProfitLimit)`,
profit-limit selling enabled, not `hodl`), and a `hodl = true` record is never
set to SELL there.  In the also-cited `TradeManager.processBoughtState`, only
the edge-triggered stop-limit check runs, gated solely by `SellAtStopLimit`:
there is no profit-limit check and `hodl` is not consulted (only carried
through unchanged), so the state becomes SELL exactly when the recomputed stop
limit crossed down and stop-limit selling is enabled, regardless of `hodl`. -/
theorem c5_sell_checks_by_version (cfg : ConfigR) (low : ℚ) (tm : TradeMemoR)
    (hst : tm.state = TradeState.BOUGHT) :
    ((V2.processBoughtState cfg tm).state = TradeState.SELL ↔
      ((tm.currentPrice < tm.stopLimitPrice ∧ cfg.SellAtStopLimit = true ∧
          tm.hodl = false) ∨
       (tm.tradeResult.price * (1 + cfg.ProfitLimit) < tm.currentPrice ∧
          cfg.SellAtProfitLimit = true ∧ tm.hodl = false))) ∧
    (tm.hodl = true → (V2.processBoughtState cfg tm).state = TradeState.BOUGHT) ∧
    ((TM.processBoughtState cfg low tm).state = TradeState.SELL ↔
      (stopLimitCrossedDown (TM.updateStopLimit cfg low { tm with ttl := tm.ttl + 1 }) ∧
        cfg.SellAtStopLimit = true)) ∧
    (TM.processBoughtState cfg low tm).hodl = tm.hodl := by
  have hv2 : ((V2.processBoughtState cfg tm).state = TradeState.SELL ↔
      ((tm.currentPrice < tm.stopLimitPrice ∧ cfg.SellAtStopLimit = true ∧
          tm.hodl = false) ∨
       (tm.tradeResult.price * (1 + cfg.ProfitLimit) < tm.currentPrice ∧
          cfg.SellAtProfitLimit = true ∧ tm.hodl = false))) ∧
      (tm.hodl = true → (V2.processBoughtState cfg tm).state = TradeState.BOUGHT) := by
    cases hh : tm.hodl with
    | true =>
      simp only [V2.processBoughtState, apply_ite TradeMemoR.state, ite_self, hh]
      split_ifs <;> simp_all
    | false =>
      simp only [V2.processBoughtState, apply_ite TradeMemoR.state, ite_self, hh]
      split_ifs <;> simp_all
  have hbst : (TM.updateStopLimit cfg low { tm with ttl := tm.ttl + 1 }).state =
      TradeState.BOUGHT := by
    rw [(updateStopLimit_fields cfg low { tm with ttl := tm.ttl + 1 }).2.2.1]
    exact hst
  refine ⟨hv2.1, hv2.2, ?_, ?_⟩
  · simp only [TM.processBoughtState]
    split_ifs with h
    · simp [h]
    · simp [hbst, h]
  · simp only [TM.processBoughtState]
    split_ifs with h
    · simp [updateStopLimit_hodl]
    · simp [updateStopLimit_hodl]

/-- A BOUGHT record below its stop limit, used to exercise the SELL checks. -/
def tmBelowStop : TradeMemoR :=
  { state := TradeState.BOUGHT
    prices := [3, 2, 1]
    currentPrice := 1
    stopLimitPrice := 2
    hodl := false
    tradeResult := { quantity := 1, paid := 10, price := 10 } }

/-- C5, witness: with the stop-limit check firing and `hodl = false`, the
apps-script version sets the record to SELL, and the TradeManager version
carries `hodl` through unchanged. -/
theorem c5_sell_checks_by_version_witness :
    (V2.processBoughtState cfgScenario tmBelowStop).state = TradeState.SELL ∧
      (TM.processBoughtState cfgScenario 0 tmBelowStop).hodl = tmBelowStop.hodl :=
  ⟨(c5_sell_checks_by_version cfgScenario 0 tmBelowStop rfl).1.mpr
      (Or.inl (by decide)),
    (c5_sell_checks_by_version cfgScenario 0 tmBelowStop rfl).2.2.2⟩

/-- Folding the per-trade `#canInvest` updates of one cycle keeps the counter
within `[0, optimalInvestRatio]`. -/
theorem canInvest_fold_bounds (opt : ℤ) (hopt : 0 ≤ opt) :
    ∀ (evs : List TM.TradeEvent) (s : ℤ), 0 ≤ s → s ≤ opt →
      0 ≤ evs.foldl (TM.applyEvent opt) s ∧
        evs.foldl (TM.applyEvent opt) s ≤ opt := by
  intro evs
  induction evs with
  | nil => intro s h0 h1; exact ⟨h0, h1⟩
  | cons e evs ih =>
    intro s h0 h1
    simp only [List.foldl_cons]
    apply ih
    · cases e
      · exact le_max_left _ _
      · exact le_min hopt (by omega)
    · cases e
      · exact max_le hopt (by omega)
      · exact min_le_left _ _

/-- C7: `optimalInvestRatio` is clamped to `[2, 4]` from the candidate count,
and throughout one `trade()` cycle — reset to `optimalInvestRatio` when no
investments are open, decremented with a floor of 0 on each successful buy,
incremented with a cap of `optimalInvestRatio` on each successful sell —
`#canInvest` stays within `[0, optimalInvestRatio]`, provided the value
carried into the cycle already does (a freshly constructed manager carries
0). -/
theorem c7_canInvest_bounds (candidates : ℕ) (noInvestments : Bool) (prev : ℤ)
    (evs : List TM.TradeEvent) (h0 : 0 ≤ prev)
    (h1 : prev ≤ TM.optimalInvestRatio candidates) :
    (2 ≤ TM.optimalInvestRatio candidates ∧ TM.optimalInvestRatio candidates ≤ 4) ∧
    0 ≤ TM.cycleCanInvest noInvestments prev (TM.optimalInvestRatio candidates) evs ∧
    TM.cycleCanInvest noInvestments prev (TM.optimalInvestRatio candidates) evs ≤
      TM.optimalInvestRatio candidates := by
  have hopt2 : 2 ≤ TM.optimalInvestRatio candidates := le_max_left _ _
  have hopt4 : TM.optimalInvestRatio candidates ≤ 4 :=
    max_le (by norm_num) (min_le_left _ _)
  refine ⟨⟨hopt2, hopt4⟩, ?_⟩
  unfold TM.cycleCanInvest
  apply canInvest_fold_bounds _ (by omega)
  · cases noInvestments
    · simpa using h0
    · simp
      omega
  · cases noInvestments <;> simp [h1]

/-- C7, witness: one candidate, empty ledger (reset to the ratio 2), one
successful buy followed by one successful sell. -/
theorem c7_canInvest_bounds_witness :
    (0 : ℤ) ≤ 0 ∧ (0 : ℤ) ≤ TM.optimalInvestRatio 1 ∧
      (0 ≤ TM.cycleCanInvest true 0 (TM.optimalInvestRatio 1)
          [TM.TradeEvent.buyOk, TM.TradeEvent.sellOk] ∧
        TM.cycleCanInvest true 0 (TM.optimalInvestRatio 1)
            [TM.TradeEvent.buyOk, TM.TradeEvent.sellOk] ≤
          TM.optimalInvestRatio 1) :=
  ⟨le_refl 0, by decide,
    (c7_canInvest_bounds 1 true 0 [TM.TradeEvent.buyOk, TM.TradeEvent.sellOk]
      (le_refl 0) (by decide)).2⟩

/-- C6: the proposed spend of `#calculateQuantity` is 0 when `canInvest ≤ 0`
or the record already holds quantity, and otherwise
`max(15, floor(balance / canInvest))`; `#checkTrade` performs the buy action
only when the proposed spend `q` satisfies `0 < q ≤ availableBalance`, and
when a BUY-state record passes the price-move gate but the spend check fails,
it is reset to IDLE instead. -/
theorem c6_buy_spend_gating (env : TM.Env) (ms : MgrState) (cfg : ConfigR)
    (tm : TradeMemoR) :
    (∀ ms2 tm2, TM.calculateQuantity ms2 tm2 =
      if ms2.canInvest ≤ 0 ∨ 0 < tm2.tradeResult.quantity then 0
      else max 15 ((⌊ms2.balance / (ms2.canInvest : ℚ)⌋ : ℤ) : ℚ)) ∧
    (∀ q, (TM.checkTrade env ms cfg tm).2.2 = TM.TMAction.buyAct q →
      0 < q ∧ q ≤ (TM.checkTradePush env ms tm).1.balance ∧
      q = TM.calculateQuantity (TM.checkTradePush env ms tm).1
            (TM.checkTradeProcessed env cfg ms tm)) ∧
    ((TM.checkTradeProcessed env cfg ms tm).state = TradeState.BUY →
      PriceMove.DOWN.rank <
        (getPriceMove (TM.checkTradeProcessed env cfg ms tm).prices).rank →
      ¬(0 < TM.calculateQuantity (TM.checkTradePush env ms tm).1
              (TM.checkTradeProcessed env cfg ms tm) ∧
          TM.calculateQuantity (TM.checkTradePush env ms tm).1
              (TM.checkTradeProcessed env cfg ms tm) ≤
            (TM.checkTradePush env ms tm).1.balance) →
      (TM.checkTrade env ms cfg tm).2.1.state = TradeState.IDLE) := by
  refine ⟨fun ms2 tm2 => rfl, ?_, ?_⟩
  · intro q hq
    simp only [TM.checkTrade] at hq
    split_ifs at hq with h1 h2 h3
    simp at hq
    exact ⟨hq ▸ h3.1, hq ▸ h3.2, hq.symm⟩
  · intro hstate hpm hno
    have hc1 : ¬((TM.checkTradeProcessed env cfg ms tm).state = TradeState.SELL ∧
        (stopLimitCrossedDown (TM.checkTradeProcessed env cfg ms tm) ∨
          (getPriceMove (TM.checkTradeProcessed env cfg ms tm).prices).rank <
            PriceMove.UP.rank)) := by
      intro h
      rw [hstate] at h
      simpa using h.1
    simp only [TM.checkTrade]
    rw [if_neg hc1, if_pos (And.intro hstate hpm), if_neg hno]
    simp [resetState]

/-- A cycle environment whose `marketBuy` succeeds at price 10. -/
def envBuyW : TM.Env :=
  { price := some 10
    buyResult := { fromExchange := true, price := 10, paid := 15, quantity := 3/2 } }

/-- A manager with 2 invest credits and balance 100. -/
def msBuyW : MgrState := { canInvest := 2, balance := 100 }

/-- A BUY-requested record with rising prices and no held quantity. -/
def tmBuyW : TradeMemoR := { state := TradeState.BUY, prices := [8, 9] }

/-- C6, witness: on the concrete buy environment the performed buy spends
`max(15, floor(100/2)) = 50`, which is positive and within the balance. -/
theorem c6_buy_spend_gating_witness :
    0 < (50 : ℚ) ∧
      (50 : ℚ) ≤ (TM.checkTradePush envBuyW msBuyW tmBuyW).1.balance ∧
      (50 : ℚ) = TM.calculateQuantity (TM.checkTradePush envBuyW msBuyW tmBuyW).1
        (TM.checkTradeProcessed envBuyW cfgScenario msBuyW tmBuyW) :=
  (c6_buy_spend_gating envBuyW msBuyW cfgScenario tmBuyW).2.1 50 (by
    simp [TM.checkTrade, TM.checkTradePush, TM.checkTradeProcessed,
      TM.processBoughtState, TM.updateStopLimit, TM.calculateQuantity,
      TM.MIN_BUSD_BUY, pushPrice, getPriceMove, stopLimitCrossedDown,
      envBuyW, msBuyW, tmBuyW, cfgScenario, PriceMemoMaxCapacity,
      max_def, min_def, PriceMove.rank]
    norm_num)

/-- A held BOUGHT record (quantity 1, `ttl = 3`, stop limit 5) for the
missing-price cycle. -/
def tmHeldNoPrice : TradeMemoR :=
  { state := TradeState.BOUGHT
    prices := [10, 10, 10]
    currentPrice := 10
    stopLimitPrice := 5
    ttl := 3
    tradeResult := { quantity := 1, paid := 10 } }

/-- A production-mode cycle (`isNode = false`) with no price available. -/
def envNoPrice : TM.Env := { price := none, isNode := false }

/-- C8, counterexample: with no price for a held record in production mode,
`#checkTrade` does not abort the record's processing — `ttl` is incremented
from 3 to 4 and the stop limit is recomputed from 5 to 7.5 using the stale
prices, contradicting the claim that all fields stay unchanged. -/
theorem c8_missing_price_not_aborted :
    (TM.checkTrade envNoPrice {} cfgScenario tmHeldNoPrice).2.1.ttl = 4 ∧
      tmHeldNoPrice.ttl = 3 ∧
      (TM.checkTrade envNoPrice {} cfgScenario tmHeldNoPrice).2.1.stopLimitPrice = 15/2 ∧
      tmHeldNoPrice.stopLimitPrice = 5 := by
  have h : TM.checkTrade envNoPrice {} cfgScenario tmHeldNoPrice =
      ({}, { tmHeldNoPrice with ttl := 4, stopLimitPrice := 15/2 },
        TM.TMAction.noAction) := by
    simp [TM.checkTrade, TM.checkTradePush, TM.checkTradeProcessed,
      TM.processBoughtState, TM.updateStopLimit, stopLimitCrossedDown,
      getPriceMove, envNoPrice, tmHeldNoPrice, cfgScenario, profit,
      min_def, max_def, PriceMove.rank]
    norm_num
    simp
  rw [h]
  norm_num [tmHeldNoPrice]

/-- C8, amended: for a held record with no price this cycle in production
mode, the price history is left untouched and only an alert is raised, but
processing continues: a BOUGHT record (with stop-limit selling disabled, so
that no sell action follows) keeps its state and trade result while its `ttl`
is incremented and its stop limit recomputed from the stale prices, and the
manager state is untouched; a record with quantity 0 in IDLE or SOLD state is
left entirely unchanged (no-op). -/
theorem c8_missing_price_behavior (env : TM.Env) (ms : MgrState)
    (cfg : ConfigR) (tm : TradeMemoR) (hp : env.price = none)
    (hn : env.isNode = false) :
    (0 < tm.tradeResult.quantity → tm.state = TradeState.BOUGHT →
      cfg.SellAtStopLimit = false →
      (TM.checkTrade env ms cfg tm).2.1.prices = tm.prices ∧
      (TM.checkTrade env ms cfg tm).2.1.ttl = tm.ttl + 1 ∧
      (TM.checkTrade env ms cfg tm).2.1.state = TradeState.BOUGHT ∧
      (TM.checkTrade env ms cfg tm).2.1.tradeResult = tm.tradeResult ∧
      (TM.checkTrade env ms cfg tm).1 = ms) ∧
    (tm.tradeResult.quantity = 0 →
      (tm.state = TradeState.IDLE ∨ tm.state = TradeState.SOLD) →
      (TM.checkTrade env ms cfg tm).2.1 = tm ∧
        (TM.checkTrade env ms cfg tm).1 = ms) := by
  constructor
  · intro hq hb hsl
    have hpush : TM.checkTradePush env ms tm = (ms, tm) := by
      simp [TM.checkTradePush, hp, hn, hq]
    have hproc : TM.checkTradeProcessed env cfg ms tm =
        TM.updateStopLimit cfg env.channelLow { tm with ttl := tm.ttl + 1 } := by
      simp [TM.checkTradeProcessed, hpush, hq, TM.processBoughtState, hsl]
    have hu := updateStopLimit_fields cfg env.channelLow { tm with ttl := tm.ttl + 1 }
    have hst2 : (TM.checkTradeProcessed env cfg ms tm).state = TradeState.BOUGHT := by
      rw [hproc, hu.2.2.1]; exact hb
    have hns : (TM.checkTradeProcessed env cfg ms tm).state ≠ TradeState.SELL := by
      rw [hst2]; simp
    have hnb : (TM.checkTradeProcessed env cfg ms tm).state ≠ TradeState.BUY := by
      rw [hst2]; simp
    have hres : TM.checkTrade env ms cfg tm =
        (ms, TM.checkTradeProcessed env cfg ms tm, TM.TMAction.noAction) := by
      simp only [TM.checkTrade]
      rw [if_neg (fun h => hns h.1), if_neg (fun h => hnb h.1)]
      rw [hpush]
    rw [hres]
    refine ⟨?_, ?_, hst2, ?_, rfl⟩ <;> rw [hproc]
    · exact hu.1
    · exact hu.2.1
    · exact hu.2.2.2.2
  · intro hq0 hst
    have hpush : TM.checkTradePush env ms tm = (ms, tm) := by
      simp [TM.checkTradePush, hp, hq0]
    have hproc : TM.checkTradeProcessed env cfg ms tm = tm := by
      simp [TM.checkTradeProcessed, hpush, hq0]
    have hns : (TM.checkTradeProcessed env cfg ms tm).state ≠ TradeState.SELL := by
      rw [hproc]; rcases hst with h | h <;> simp [h]
    have hnb : (TM.checkTradeProcessed env cfg ms tm).state ≠ TradeState.BUY := by
      rw [hproc]; rcases hst with h | h <;> simp [h]
    simp only [TM.checkTrade]
    rw [if_neg (fun h => hns h.1), if_neg (fun h => hnb h.1)]
    rw [hpush, hproc]
    exact ⟨rfl, rfl⟩

/-- The scenario configuration with stop-limit selling disabled. -/
def cfgNoStopSell : ConfigR := { SellAtStopLimit := false }

/-- C8, witness: the amended behavior at the held no-price record. -/
theorem c8_missing_price_behavior_witness :
    (TM.checkTrade envNoPrice {} cfgNoStopSell tmHeldNoPrice).2.1.prices =
        tmHeldNoPrice.prices ∧
      (TM.checkTrade envNoPrice {} cfgNoStopSell tmHeldNoPrice).2.1.ttl =
        tmHeldNoPrice.ttl + 1 ∧
      (TM.checkTrade envNoPrice {} cfgNoStopSell tmHeldNoPrice).2.1.state =
        TradeState.BOUGHT ∧
      (TM.checkTrade envNoPrice {} cfgNoStopSell tmHeldNoPrice).2.1.tradeResult =
        tmHeldNoPrice.tradeResult ∧
      (TM.checkTrade envNoPrice {} cfgNoStopSell tmHeldNoPrice).1 = {} :=
  (c8_missing_price_behavior envNoPrice {} cfgNoStopSell tmHeldNoPrice rfl rfl).1
    (by decide) rfl rfl

/-- The head produced by one comparator-driven insertion: the incoming record
displaces the current head only when its profit percentage is strictly
lower. -/
def headMinPP (o : Option TradeMemoR) (x : TradeMemoR) : TradeMemoR :=
  match o with
  | none => x
  | some h => if profitPercent x < profitPercent h then x else h

/-- Inserting into the sorted list changes the head as `headMinPP` does. -/
theorem insertByPP_head (x : TradeMemoR) (l : List TradeMemoR) :
    (V2.insertByPP x l).head? = some (headMinPP l.head? x) := by
  cases l with
  | nil => rfl
  | cons y ys =>
    simp only [V2.insertByPP, headMinPP, List.head?_cons]
    split_ifs <;> simp

/-- The head of the insertion-sort fold depends only on the accumulator's
head, via `headMinPP`. -/
theorem sortByPP_foldl_head (l : List TradeMemoR) :
    ∀ acc : List TradeMemoR,
      (l.foldl (fun a x => V2.insertByPP x a) acc).head? =
        l.foldl (fun o x => some (headMinPP o x)) acc.head? := by
  induction l with
  | nil => intro acc; rfl
  | cons x xs ih =>
    intro acc
    simp only [List.foldl_cons]
    rw [ih, insertByPP_head]

/-- The optional `headMinPP` fold started on `some b` is the plain
first-encountered-minimum fold started on `b`. -/
theorem foldl_headMin_some (l : List TradeMemoR) :
    ∀ b : TradeMemoR,
      l.foldl (fun o x => some (headMinPP o x)) (some b) =
        some (l.foldl
          (fun c u => if profitPercent u < profitPercent c then u else c) b) := by
  induction l with
  | nil => intro b; rfl
  | cons x xs ih =>
    intro b
    simp only [List.foldl_cons]
    rw [ih]
    rfl

/-- The head of the comparator sort is exactly the spec's first-encountered
lowest-profit record. -/
theorem sortByPP_head (l : List TradeMemoR) :
    (V2.sortByPP l).head? = V2.specLowestProfitFirst l := by
  cases l with
  | nil => rfl
  | cons x xs =>
    show ((x :: xs).foldl (fun a y => V2.insertByPP y a) []).head? = _
    rw [List.foldl_cons]
    rw [sortByPP_foldl_head]
    show xs.foldl (fun o y => some (headMinPP o y)) (some x) = _
    rw [foldl_headMin_some]
    rfl

/-- The first-encountered-minimum fold yields an element of the candidates
whose profit percentage is minimal. -/
theorem foldl_min_props (l : List TradeMemoR) :
    ∀ b : TradeMemoR,
      (l.foldl (fun c u => if profitPercent u < profitPercent c then u else c) b = b ∨
        l.foldl (fun c u => if profitPercent u < profitPercent c then u else c) b ∈ l) ∧
      profitPercent
          (l.foldl (fun c u => if profitPercent u < profitPercent c then u else c) b) ≤
        profitPercent b ∧
      ∀ u ∈ l,
        profitPercent
            (l.foldl (fun c u => if profitPercent u < profitPercent c then u else c) b) ≤
          profitPercent u := by
  induction l with
  | nil => intro b; exact ⟨Or.inl rfl, le_refl _, by simp⟩
  | cons x xs ih =>
    intro b
    simp only [List.foldl_cons]
    obtain ⟨hmem, hle, hall⟩ :=
      ih (if profitPercent x < profitPercent b then x else b)
    have hfb : profitPercent (if profitPercent x < profitPercent b then x else b) ≤
        profitPercent b := by
      split_ifs with h
      · exact le_of_lt h
      · exact le_refl _
    have hfx : profitPercent (if profitPercent x < profitPercent b then x else b) ≤
        profitPercent x := by
      split_ifs with h
      · exact le_refl _
      · exact le_of_not_lt h
    refine ⟨?_, hle.trans hfb, ?_⟩
    · rcases hmem with h | h
      · rw [h]
        split_ifs with hc
        · exact Or.inr (List.mem_cons_self x xs)
        · exact Or.inl rfl
      · exact Or.inr (List.mem_cons_of_mem x h)
    · intro u hu
      rcases List.mem_cons.mp hu with h | h
      · exact h ▸ hle.trans hfx
      · exact hall u h

/-- C9: after a sell ending in SOLD state with averaging-down enabled, the
reinvestment buys with the full sale proceeds as cost, its target is the
first-encountered BOUGHT-state record of lowest profit percentage
(`profit / paidCost`), no record with a strictly higher profit percentage
than another BOUGHT record is ever selected, and nothing is bought when no
BOUGHT-state record exists. -/
theorem c9_averaging_down_target (cfg : ConfigR) (memo : TradeMemoR)
    (gained : ℚ) (trades : List TradeMemoR)
    (hs : memo.state = TradeState.SOLD) (ha : cfg.AveragingDown = true) :
    (V2.sellReinvest cfg memo gained trades =
      (V2.specLowestProfitFirst
          (trades.filter fun t => decide (t.state = TradeState.BOUGHT))).map
        (fun t => (t, gained))) ∧
    (trades.filter (fun t => decide (t.state = TradeState.BOUGHT)) = [] →
      V2.sellReinvest cfg memo gained trades = none) ∧
    (∀ t, V2.specLowestProfitFirst
        (trades.filter fun t => decide (t.state = TradeState.BOUGHT)) = some t →
      t ∈ trades.filter (fun t => decide (t.state = TradeState.BOUGHT)) ∧
      ∀ u ∈ trades.filter (fun t => decide (t.state = TradeState.BOUGHT)),
        profitPercent t ≤ profitPercent u) := by
  have h1 : V2.sellReinvest cfg memo gained trades =
      (V2.specLowestProfitFirst
          (trades.filter fun t => decide (t.state = TradeState.BOUGHT))).map
        (fun t => (t, gained)) := by
    unfold V2.sellReinvest V2.lowestProfitTrade
    rw [if_pos (And.intro hs ha), sortByPP_head]
  refine ⟨h1, ?_, ?_⟩
  · intro hempty
    rw [h1, hempty]
    rfl
  · intro t ht
    cases hl : trades.filter (fun t => decide (t.state = TradeState.BOUGHT)) with
    | nil => rw [hl] at ht; exact absurd ht (by simp [V2.specLowestProfitFirst])
    | cons x xs =>
      rw [hl] at ht
      have hfold := foldl_min_props xs x
      have ht2 : t = xs.foldl
          (fun c u => if profitPercent u < profitPercent c then u else c) x := by
        simpa [V2.specLowestProfitFirst] using ht.symm
      constructor
      · rw [ht2]
        rcases hfold.1 with h | h
        · rw [h]; exact List.mem_cons_self x xs
        · exact List.mem_cons_of_mem x h
      · intro u hu
        rcases List.mem_cons.mp hu with h | h
        · rw [ht2, h]
          exact hfold.2.1
        · rw [ht2]
          exact hfold.2.2 u h

/-- Open position A: profit percentage −5% (bought at 10, now 9.5). -/
def tmLoss : TradeMemoR :=
  { state := TradeState.BOUGHT
    prices := [10, 10, 19/2]
    currentPrice := 19/2
    tradeResult := { quantity := 1, paid := 10, price := 10 } }

/-- Open position B: profit percentage +10% (bought at 10, now 11). -/
def tmGain : TradeMemoR :=
  { state := TradeState.BOUGHT
    prices := [10, 10, 11]
    currentPrice := 11
    tradeResult := { quantity := 1, paid := 10, price := 10 } }

/-- A record just sold (SOLD state). -/
def memoSoldW : TradeMemoR := { state := TradeState.SOLD, deleted := true }

/-- A configuration with averaging down enabled. -/
def cfgAvgDown : ConfigR := { AveragingDown := true }

/-- C9, witness: with positions A (−5%) and B (+10%), the sale proceeds of 50
are reinvested into A, never B. -/
theorem c9_averaging_down_target_witness :
    V2.sellReinvest cfgAvgDown memoSoldW 50 [tmLoss, tmGain] =
      some (tmLoss, 50) := by
  rw [(c9_averaging_down_target cfgAvgDown memoSoldW 50 [tmLoss, tmGain] rfl rfl).1]
  norm_num [V2.specLowestProfitFirst, tmLoss, tmGain, profitPercent, profit]

end TradingHelper
